import Mathlib

/-!
Verification of the zodiac proxy handshake libraries: the SOCKS5 crate
(`libra`) and the HTTP CONNECT crate (`leo`).  Bytes are modelled as `Nat`
(values below 256), byte buffers as `List Nat`.  Rust operations that can
panic (assert!, expect, out-of-range indexing, `split_to` / `get_u16` on a
too-short buffer) are modelled by explicit `panic` outcomes.
-/

namespace Libra

/-- SOCKS protocol constants from `src/libra/src/codec.rs`. -/
def SOCKS_VERSION : Nat := 5

/-- Username/password sub-negotiation version constant. -/
def AUTH_VERSION : Nat := 1

/-- Address type byte for IPv4. -/
def DST_IPV4 : Nat := 1

/-- Address type byte for a domain name. -/
def DST_DOMAIN : Nat := 3

/-- Address type byte for IPv6. -/
def DST_IPV6 : Nat := 4

/-- Command byte for CONNECT. -/
def CONNECT : Nat := 1

/-- Reply code: succeeded. -/
def SUCCEEDED : Nat := 0

/-- Reply code: host unreachable. -/
def HOST_UNREACHABLE : Nat := 4

/-- Reply code: command not supported. -/
def COMMAND_NOT_SUPPORTED : Nat := 7

/-- Reply code: address type not supported. -/
def ADDRESS_TYPE_NOT_SUPPORTED : Nat := 8

/-- Method byte: no authentication required. -/
def NO_AUTHENTICATION_REQUIRED : Nat := 0

/-- Method byte: username and password. -/
def USERNAME_AND_PASSWORD : Nat := 2

/-- Method byte: no acceptable methods. -/
def NO_ACCEPTABLE_METHODS : Nat := 255

/-- Auth status byte: success. -/
def AUTH_SUCCEED : Nat := 0

/-- Auth status byte: failure. -/
def AUTH_FAILED : Nat := 1

/-- The SOCKS frame variants (`enum Item` in `codec.rs`).  The Rust
`String` fields of `UsernamePassword` are modelled as their UTF-8 byte
lists. -/
inductive Item where
  | methods (ms : List Nat)
  | selection (m : Nat)
  | usernamePassword (u p : List Nat)
  | status (s : Nat)
  | command (cmd atyp : Nat) (addr : List Nat) (port : Nat)
  | reply (rep atyp : Nat) (addr : List Nat) (port : Nat)
deriving DecidableEq, Repr

/-- The decoder stage (`enum DecoderState`). -/
inductive DecoderState where
  | methods
  | selection
  | usernamePassword
  | status
  | command
  | reply
deriving DecidableEq, Repr

/-- Outcome of one `Codec::decode` call on a buffer: `more` is `Ok(None)`
(no bytes consumed), `item` is `Ok(Some _)` together with the bytes left in
the buffer, `error` is `Err _`, and `panic` is a Rust panic (a failed
assert, invalid UTF-8 in `expect`, an out-of-bounds index, or an
out-of-range `split_to` / `get_u16`). -/
inductive DecodeResult where
  | more
  | item (i : Item) (rest : List Nat)
  | error
  | panic
deriving DecidableEq, Repr

/-- `BytesMut::split_to n`: take the first `n` bytes; out of range when the
buffer is shorter than `n` (a panic in Rust, hence `none` here). -/
def splitTo (n : Nat) (l : List Nat) : Option (List Nat × List Nat) :=
  if n ≤ l.length then some (l.take n, l.drop n) else none

/-- `Buf::get_u16`: read a big-endian 16-bit value; `none` when fewer than
two bytes remain (a panic in Rust). -/
def getU16 : List Nat → Option (Nat × List Nat)
  | b0 :: b1 :: r => some (b0 * 256 + b1, r)
  | _ => none

/-- `BufMut::put_u16`: the two big-endian bytes of a 16-bit value. -/
def putU16 (p : Nat) : List Nat := [p / 256 % 256, p % 256]

/-- Validity of a byte list as UTF-8, with exactly the ranges accepted by
Rust `String::from_utf8` (no overlong forms, no surrogates, max U+10FFFF). -/
def isValidUtf8 : List Nat → Bool
  | [] => true
  | b :: rest =>
    if b ≤ 0x7F then isValidUtf8 rest
    else if 0xC2 ≤ b ∧ b ≤ 0xDF then
      match rest with
      | c1 :: rest2 =>
        if 0x80 ≤ c1 ∧ c1 ≤ 0xBF then isValidUtf8 rest2 else false
      | [] => false
    else if b = 0xE0 then
      match rest with
      | c1 :: c2 :: rest2 =>
        if (0xA0 ≤ c1 ∧ c1 ≤ 0xBF) ∧ (0x80 ≤ c2 ∧ c2 ≤ 0xBF) then
          isValidUtf8 rest2
        else false
      | _ => false
    else if (0xE1 ≤ b ∧ b ≤ 0xEC) ∨ b = 0xEE ∨ b = 0xEF then
      match rest with
      | c1 :: c2 :: rest2 =>
        if (0x80 ≤ c1 ∧ c1 ≤ 0xBF) ∧ (0x80 ≤ c2 ∧ c2 ≤ 0xBF) then
          isValidUtf8 rest2
        else false
      | _ => false
    else if b = 0xED then
      match rest with
      | c1 :: c2 :: rest2 =>
        if (0x80 ≤ c1 ∧ c1 ≤ 0x9F) ∧ (0x80 ≤ c2 ∧ c2 ≤ 0xBF) then
          isValidUtf8 rest2
        else false
      | _ => false
    else if b = 0xF0 then
      match rest with
      | c1 :: c2 :: c3 :: rest2 =>
        if (0x90 ≤ c1 ∧ c1 ≤ 0xBF) ∧ (0x80 ≤ c2 ∧ c2 ≤ 0xBF) ∧
            (0x80 ≤ c3 ∧ c3 ≤ 0xBF) then isValidUtf8 rest2 else false
      | _ => false
    else if 0xF1 ≤ b ∧ b ≤ 0xF3 then
      match rest with
      | c1 :: c2 :: c3 :: rest2 =>
        if (0x80 ≤ c1 ∧ c1 ≤ 0xBF) ∧ (0x80 ≤ c2 ∧ c2 ≤ 0xBF) ∧
            (0x80 ≤ c3 ∧ c3 ≤ 0xBF) then isValidUtf8 rest2 else false
      | _ => false
    else if b = 0xF4 then
      match rest with
      | c1 :: c2 :: c3 :: rest2 =>
        if (0x80 ≤ c1 ∧ c1 ≤ 0x8F) ∧ (0x80 ≤ c2 ∧ c2 ≤ 0xBF) ∧
            (0x80 ≤ c3 ∧ c3 ≤ 0xBF) then isValidUtf8 rest2 else false
      | _ => false
    else false

/-- `Codec::decode` from `src/libra/src/codec.rs` lines 216-356.  The
buffer is matched structurally: a pattern `b0 :: b1 :: rest` realises the
Rust guard `src.len() >= 2` and gives names to `src[0]`, `src[1]`.

The Command and Reply domain branches faithfully keep the source's
sufficiency test on `src[5]` (the first domain byte) even though the
domain length is later read from `src[4]`. -/
def decode (state : DecoderState) (src : List Nat) : DecodeResult :=
  match state with
  | .methods =>
    match src with
    | ver :: n :: rest =>
      -- src[1] as usize > src.len() - 2
      if n > rest.length then .more
      else if ver ≠ SOCKS_VERSION then .panic  -- assert! on the version
      else .item (.methods (rest.take n)) (rest.drop n)
    | _ => .more                               -- src.len() < 2
  | .selection =>
    match src with
    | ver :: m :: rest =>
      if ver ≠ SOCKS_VERSION then .panic
      else .item (.selection m) rest
    | _ => .more
  | .usernamePassword =>
    match src with
    | ver :: ulen :: rest =>
      -- src[1] as usize > src.len() - 2
      if ulen > rest.length then .more
      else
        -- src[2 + src[1] as usize]: panics when the index is out of bounds
        match rest[ulen]? with
        | none => .panic
        | some plen =>
          -- src[2+ulen] + src[1] + 2 > src.len(), with src.len() = rest.length + 2
          if plen + ulen > rest.length then .more
          else if ver ≠ AUTH_VERSION then .panic
          else
            let username := rest.take ulen
            let tail := rest.drop (ulen + 1)   -- after split_to(ulen) and get_u8
            match splitTo plen tail with
            | none => .panic                   -- split_to out of range
            | some (password, rest2) =>
              if ¬ isValidUtf8 username then .panic      -- expect("Invalid UTF-8")
              else if ¬ isValidUtf8 password then .panic
              else .item (.usernamePassword username password) rest2
    | _ => .more
  | .status =>
    match src with
    | ver :: s :: rest =>
      if ver ≠ AUTH_VERSION then .panic
      else .item (.status s) rest
    | _ => .more
  | .command =>
    match src with
    | b0 :: b1 :: _b2 :: b3 :: rest =>          -- src.len() >= 4, b3 = src[3]
      if b3 = DST_IPV4 then
        if rest.length < 6 then .more           -- src.len() < 10
        else if b0 ≠ SOCKS_VERSION then .panic
        else
          match splitTo 4 rest with
          | none => .panic
          | some (addr, r2) =>
            match getU16 r2 with
            | none => .panic
            | some (port, r3) => .item (.command b1 DST_IPV4 addr port) r3
      else if b3 = DST_IPV6 then
        if rest.length < 18 then .more          -- src.len() < 22
        else if b0 ≠ SOCKS_VERSION then .panic
        else
          match splitTo 16 rest with
          | none => .panic
          | some (addr, r2) =>
            match getU16 r2 with
            | none => .panic
            | some (port, r3) => .item (.command b1 DST_IPV6 addr port) r3
      else if b3 = DST_DOMAIN then
        match rest with
        | dlen :: d0 :: _t1 :: tail =>          -- src.len() >= 7; d0 = src[5]
          -- src[5] as usize > src.len() - 7  (src.len() - 7 = tail.length)
          if d0 > tail.length then .more
          else if b0 ≠ SOCKS_VERSION then .panic
          else
            -- the length actually consumed is src[4] = dlen
            match splitTo dlen (d0 :: _t1 :: tail) with
            | none => .panic                    -- split_to out of range
            | some (addr, r2) =>
              match getU16 r2 with
              | none => .panic
              | some (port, r3) => .item (.command b1 DST_DOMAIN addr port) r3
        | _ => .more                            -- src.len() < 7
      else .error                               -- Err(AddressTypeNotSupported)
    | _ => .more                                -- src.len() < 4
  | .reply =>
    match src with
    | b0 :: b1 :: _b2 :: b3 :: rest =>
      if b3 = DST_IPV4 then
        if rest.length < 6 then .more
        else if b0 ≠ SOCKS_VERSION then .panic
        else
          match splitTo 4 rest with
          | none => .panic
          | some (addr, r2) =>
            match getU16 r2 with
            | none => .panic
            | some (port, r3) => .item (.reply b1 DST_IPV4 addr port) r3
      else if b3 = DST_IPV6 then
        if rest.length < 18 then .more
        else if b0 ≠ SOCKS_VERSION then .panic
        else
          match splitTo 16 rest with
          | none => .panic
          | some (addr, r2) =>
            match getU16 r2 with
            | none => .panic
            | some (port, r3) => .item (.reply b1 DST_IPV6 addr port) r3
      else if b3 = DST_DOMAIN then
        match rest with
        | dlen :: d0 :: _t1 :: tail =>
          if d0 > tail.length then .more
          else if b0 ≠ SOCKS_VERSION then .panic
          else
            match splitTo dlen (d0 :: _t1 :: tail) with
            | none => .panic
            | some (addr, r2) =>
              match getU16 r2 with
              | none => .panic
              | some (port, r3) => .item (.reply b1 DST_DOMAIN addr port) r3
        | _ => .more
      else .error
    | _ => .more

/-- `Codec::encode` from `src/libra/src/codec.rs` lines 362-445.  Returns
the bytes appended to `dst` together with `true` when the call returned
`Ok(())` and `false` for `Err(AddressTypeNotSupported)` (in the error case
the four header bytes have already been written to `dst`).  Length
prefixes are written with `as u8`, i.e. reduced modulo 256; the
`debug_assert!` calls on the IPv4/IPv6 address lengths are no-ops in
release builds and impose nothing here. -/
def encode : Item → List Nat × Bool
  | .methods ms =>
    (SOCKS_VERSION :: ms.length % 256 :: ms, true)
  | .selection m =>
    ([SOCKS_VERSION, m], true)
  | .usernamePassword u p =>
    (AUTH_VERSION :: u.length % 256 :: (u ++ p.length % 256 :: p), true)
  | .status s =>
    ([AUTH_VERSION, s], true)
  | .command cmd atyp addr port =>
    if atyp = DST_IPV4 then
      ([SOCKS_VERSION, cmd, 0, atyp] ++ addr ++ putU16 port, true)
    else if atyp = DST_IPV6 then
      ([SOCKS_VERSION, cmd, 0, atyp] ++ addr ++ putU16 port, true)
    else if atyp = DST_DOMAIN then
      ([SOCKS_VERSION, cmd, 0, atyp] ++ addr.length % 256 :: (addr ++ putU16 port), true)
    else
      ([SOCKS_VERSION, cmd, 0, atyp], false)
  | .reply rep atyp addr port =>
    if atyp = DST_IPV4 then
      ([SOCKS_VERSION, rep, 0, atyp] ++ addr ++ putU16 port, true)
    else if atyp = DST_IPV6 then
      ([SOCKS_VERSION, rep, 0, atyp] ++ addr ++ putU16 port, true)
    else if atyp = DST_DOMAIN then
      ([SOCKS_VERSION, rep, 0, atyp] ++ addr.length % 256 :: (addr ++ putU16 port), true)
    else
      ([SOCKS_VERSION, rep, 0, atyp], false)

/-- A socket address as observed through the `Peer` trait
(`SocketAddr::V4` or `SocketAddr::V6` with its octets and port). -/
inductive Addr where
  | v4 (octets : List Nat) (port : Nat)
  | v6 (octets : List Nat) (port : Nat)
deriving DecidableEq, Repr

/-- The error taxonomy of `Builder::handshake` outcomes in
`src/libra/src/server.rs` (crate `errors::Error` together with the panic
and end-of-stream possibilities of the framed driver). -/
inductive HErr where
  | unauthorized
  | unknownMethod
  | rep (code : Nat)
  | addressTypeNotSupported
  | eof
  | panic
  | dialFailure
deriving DecidableEq, Repr

deriving instance DecidableEq for Except

/-- Result of a server handshake run: all bytes written to the client
stream, and either success or the error the function returned with. -/
structure HandshakeResult where
  out : List Nat
  res : Except HErr Unit
deriving DecidableEq, Repr

/-- Step 3 of the server handshake (`server.rs` lines 88-141): receive the
Command frame, dispatch on the command and address type, dial and reply.
`buf` holds the not-yet-decoded client bytes and `out` the bytes already
written to the client. -/
def handshakeCommand (dial : Except HErr Addr) (out buf : List Nat) :
    HandshakeResult :=
  match decode .command buf with
  | .item (.command cmd atyp _host _port) _rest =>
    if cmd ≠ CONNECT then
      -- send Reply(COMMAND_NOT_SUPPORTED, DST_IPV4, [0,0,0,0], 0) then fail
      ⟨out ++ (encode (.reply COMMAND_NOT_SUPPORTED DST_IPV4 [0, 0, 0, 0] 0)).1,
        .error (.rep COMMAND_NOT_SUPPORTED)⟩
    else if atyp = DST_IPV4 ∨ atyp = DST_IPV6 ∨ atyp = DST_DOMAIN then
      -- destination = Some(Destination::new(atyp, host, port)); dial it
      match dial with
      | .ok remoteAddr =>
        -- (atyp, addr, port) comes from stream.remote_addr()
        let fam :=
          match remoteAddr with
          | .v4 o p => (DST_IPV4, o, p)
          | .v6 o p => (DST_IPV6, o, p)
        ⟨out ++ (encode (.reply SUCCEEDED fam.1 fam.2.1 fam.2.2)).1, .ok ()⟩
      | .error e =>
        ⟨out ++ (encode (.reply HOST_UNREACHABLE DST_IPV4 [0, 0, 0, 0] 0)).1,
          .error e⟩
    else
      -- send Reply(ADDRESS_TYPE_NOT_SUPPORTED, ...) then fail
      ⟨out ++ (encode (.reply ADDRESS_TYPE_NOT_SUPPORTED DST_IPV4 [0, 0, 0, 0] 0)).1,
        .error .addressTypeNotSupported⟩
  | .item _ _ => ⟨out, .error .panic⟩   -- recv's state check panics
  | .more => ⟨out, .error .eof⟩         -- the client sends nothing further
  | .error => ⟨out, .error .addressTypeNotSupported⟩  -- decoder Err is propagated by recv
  | .panic => ⟨out, .error .panic⟩

/-- `Builder::handshake` from `src/libra/src/server.rs` lines 58-142, for a
client that has already sent all of `input`.  `auth` is the configured
`(username, password)` pair, `dial` the outcome of the connect callback
(`Ok` carrying the upstream stream's remote address).  Writes performed
with `frame.send` are appended to `out` in order. -/
def handshake (auth : Option (List Nat × List Nat)) (dial : Except HErr Addr)
    (input : List Nat) : HandshakeResult :=
  match decode .methods input with
  | .item (.methods methods) rest =>
    match auth with
    | some (user, pass) =>
      if USERNAME_AND_PASSWORD ∈ methods then
        let out := (encode (.selection USERNAME_AND_PASSWORD)).1
        match decode .usernamePassword rest with
        | .item (.usernamePassword u p) rest2 =>
          if u = user ∧ p = pass then
            handshakeCommand dial (out ++ (encode (.status AUTH_SUCCEED)).1) rest2
          else
            ⟨out ++ (encode (.status AUTH_FAILED)).1, .error .unauthorized⟩
        | .item _ _ => ⟨out, .error .panic⟩
        | .more => ⟨out, .error .eof⟩
        | .error => ⟨out, .error .addressTypeNotSupported⟩
        | .panic => ⟨out, .error .panic⟩
      else
        ⟨(encode (.selection NO_ACCEPTABLE_METHODS)).1, .error .unknownMethod⟩
    | none =>
      handshakeCommand dial (encode (.selection NO_AUTHENTICATION_REQUIRED)).1 rest
  | .item _ _ => ⟨[], .error .panic⟩
  | .more => ⟨[], .error .eof⟩
  | .error => ⟨[], .error .addressTypeNotSupported⟩
  | .panic => ⟨[], .error .panic⟩

/-- Claim C1.  The round-trip property fails on the code: the well-formed
domain Command frame `Command(CONNECT, DST_DOMAIN, "a", 80)` encodes to the
8-byte frame `[5,1,0,3,1,97,0,80]`, and the decoder at the Command stage,
given exactly those bytes, answers "need more" instead of the frame,
because its sufficiency test reads the first domain byte `src[5] = 97`
instead of the domain length `src[4] = 1`. -/
theorem libra_c1_domain_roundtrip_fails :
    encode (.command 1 3 [97] 80) = ([5, 1, 0, 3, 1, 97, 0, 80], true) ∧
    decode .command [5, 1, 0, 3, 1, 97, 0, 80] = .more := by
  decide

/-- Claim C2.  Partial-input safety fails on the code: `[1,1,97,1]` is a
strict prefix of the encoding `[1,1,97,1,98]` of
`UsernamePassword("a","b")`, and the decoder at the UsernamePassword stage
panics on it (`split_to` out of range) instead of returning "need more";
likewise `[5,1,0,3,3,0,0]` is a strict prefix of the encoding of the domain
command `Command(CONNECT, DST_DOMAIN, [0,0,0], 80)` on which the Command
stage panics. -/
theorem libra_c2_partial_input_panics :
    encode (.usernamePassword [97] [98]) = ([1, 1, 97, 1, 98], true) ∧
    decode .usernamePassword [1, 1, 97, 1] = .panic ∧
    encode (.command 1 3 [0, 0, 0] 80) = ([5, 1, 0, 3, 3, 0, 0, 0, 0, 80], true) ∧
    List.isPrefixOf [5, 1, 0, 3, 3, 0, 0] [5, 1, 0, 3, 3, 0, 0, 0, 0, 80] = true ∧
    decode .command [5, 1, 0, 3, 3, 0, 0] = .panic := by
  decide

/-- Claim C3.  The complete well-formed domain Command frame
`[5,1,0,3,2,98,99,0,80]` (dlen = 2, 9 = 7+2 bytes) is answered with "need
more" by the Command-stage decoder, and the matching Reply frame by the
Reply-stage decoder, contradicting the claim that every complete
domain-typed frame of `7+dlen` bytes is decoded: the code compares
`src[5]` (here 98) with the available length instead of `dlen = src[4]`. -/
theorem libra_c3_domain_length_check_wrong :
    encode (.command 1 3 [98, 99] 80) = ([5, 1, 0, 3, 2, 98, 99, 0, 80], true) ∧
    decode .command [5, 1, 0, 3, 2, 98, 99, 0, 80] = .more ∧
    decode .reply [5, 0, 0, 3, 2, 98, 99, 0, 80] = .more := by
  decide

/-- Claim C4, counterexample.  Encoding a Command whose address type is
IPv4 but whose address vector has length 1 (and a Reply with an IPv6
3-byte address) does not return an error: the encoder writes the malformed
frame and reports success, because the length checks are only
`debug_assert!`s. -/
theorem libra_c4_counterexample :
    encode (.command 1 1 [9] 7) = ([5, 1, 0, 1, 9, 0, 7], true) ∧
    encode (.reply 0 4 [1, 2, 3] 9) = ([5, 0, 0, 4, 1, 2, 3, 0, 9], true) := by
  decide

/-- Claim C4, amended.  The encoder performs no address-length validation
for IPv4/IPv6 (the `debug_assert!`s vanish in release builds): for any
address vector whatsoever it writes the header, the address bytes verbatim
and the port, and succeeds; an error is returned only for an unrecognized
address type, after the four header bytes were already written. -/
theorem libra_c4_encode_no_length_validation (cmd : Nat) (addr : List Nat) (port : Nat) :
    encode (.command cmd 1 addr port) = ([5, cmd, 0, 1] ++ addr ++ putU16 port, true) ∧
    encode (.command cmd 4 addr port) = ([5, cmd, 0, 4] ++ addr ++ putU16 port, true) ∧
    encode (.reply cmd 1 addr port) = ([5, cmd, 0, 1] ++ addr ++ putU16 port, true) ∧
    encode (.reply cmd 4 addr port) = ([5, cmd, 0, 4] ++ addr ++ putU16 port, true) ∧
    encode (.command cmd 2 addr port) = ([5, cmd, 0, 2], false) ∧
    encode (.reply cmd 0 addr port) = ([5, cmd, 0, 0], false) :=
  ⟨rfl, rfl, rfl, rfl, rfl, rfl⟩

/-- Contiguous-subsequence test: does `needle` occur as a contiguous run
inside `hay`? -/
def isInfixOf (needle hay : List Nat) : Bool :=
  match hay with
  | [] => needle == []
  | _ :: t => List.isPrefixOf needle hay || isInfixOf needle t

/-- Claim C5, counterexample.  A no-auth handshake that receives the
complete 10-byte command frame `[5,1,0,2,...]` (address type `0x02`,
unsupported) fails with `AddressTypeNotSupported`, but the bytes written
to the client are exactly the method selection `[5,0]`: the frame
`Reply(REP_ATYP_NOT_SUPPORTED, IPv4, 0.0.0.0, 0) = [5,8,0,1,0,0,0,0,0,0]`
is never written, because the decoder raises the error inside `recv`
before the server's reply-writing branch can run. -/
theorem libra_c5_counterexample :
    handshake none (.ok (.v4 [7, 7, 7, 7] 99))
        ([5, 1, 0] ++ [5, 1, 0, 2, 0, 0, 0, 0, 0, 0])
      = ⟨[5, 0], .error .addressTypeNotSupported⟩ ∧
    isInfixOf (encode (.reply 8 1 [0, 0, 0, 0] 0)).1
        (handshake none (.ok (.v4 [7, 7, 7, 7] 99))
          ([5, 1, 0] ++ [5, 1, 0, 2, 0, 0, 0, 0, 0, 0])).out = false := by
  decide

/-- Claim C5, amended.  For every no-auth handshake whose command frame
carries an address-type byte other than `0x01`, `0x03`, `0x04`, the
handshake fails with `AddressTypeNotSupported` and the only bytes written
to the client are the method selection `[5,0]` — no reply frame is sent,
since the decoder itself rejects the address type during `recv` and the
server's `Reply(REP_ATYP_NOT_SUPPORTED, ...)` branch is unreachable. -/
theorem libra_c5_no_reply_on_bad_atyp (ms r : List Nat) (b0 b1 b2 b3 : Nat)
    (dial : Except HErr Addr) (h1 : b3 ≠ 1) (h3 : b3 ≠ 3) (h4 : b3 ≠ 4) :
    handshake none dial (5 :: ms.length :: (ms ++ (b0 :: b1 :: b2 :: b3 :: r)))
      = ⟨[5, 0], .error .addressTypeNotSupported⟩ := by
  have hm : decode .methods (5 :: ms.length :: (ms ++ (b0 :: b1 :: b2 :: b3 :: r)))
      = .item (.methods ms) (b0 :: b1 :: b2 :: b3 :: r) := by
    have hlen : ¬ ms.length > (ms ++ (b0 :: b1 :: b2 :: b3 :: r)).length := by
      simp [List.length_append]
    simp [decode, SOCKS_VERSION, hlen, List.take_left, List.drop_left]
  have hc : decode .command (b0 :: b1 :: b2 :: b3 :: r) = .error := by
    simp [decode, DST_IPV4, DST_IPV6, DST_DOMAIN, h1, h3, h4]
  simp [handshake, hm, handshakeCommand, hc, encode, SOCKS_VERSION,
    NO_AUTHENTICATION_REQUIRED]

/-- Witness for the amended claim C5 at a concrete run. -/
theorem libra_c5_no_reply_on_bad_atyp_witness :
    handshake none (.error .dialFailure)
        (5 :: [0].length :: ([0] ++ (5 :: 1 :: 0 :: 2 :: [0, 0, 0, 0, 0, 0])))
      = ⟨[5, 0], .error .addressTypeNotSupported⟩ :=
  libra_c5_no_reply_on_bad_atyp [0] [0, 0, 0, 0, 0, 0] 5 1 0 2
    (.error .dialFailure) (by decide) (by decide) (by decide)

/-- Claim C6, counterexample.  Two no-auth handshake runs on the same
client bytes, same (absent) bind configuration, differing only in the
remote address of the upstream stream produced by the dial callback,
write different success replies; hence the success reply is not
determined by a configured bind address or by the incoming client
stream — it copies the upstream stream's remote address. -/
theorem libra_c6_counterexample :
    (handshake none (.ok (.v4 [9, 9, 9, 9] 1234))
        [5, 1, 0, 5, 1, 0, 1, 10, 0, 0, 1, 0, 80]).out ≠
      (handshake none (.ok (.v4 [8, 8, 8, 8] 1234))
        [5, 1, 0, 5, 1, 0, 1, 10, 0, 0, 1, 0, 80]).out ∧
    (handshake none (.ok (.v4 [9, 9, 9, 9] 1234))
        [5, 1, 0, 5, 1, 0, 1, 10, 0, 0, 1, 0, 80]).res = .ok () ∧
    (handshake none (.ok (.v4 [8, 8, 8, 8] 1234))
        [5, 1, 0, 5, 1, 0, 1, 10, 0, 0, 1, 0, 80]).res = .ok () := by
  decide

/-- Claim C6, amended.  On a successful dial the success reply written by
the server is `Reply(SUCCEEDED, family, octets, port)` built from the
remote address of the upstream stream returned by the dial callback
(`stream.remote_addr()`); the builder has no bind-address option and the
incoming client stream's local address is never consulted. -/
theorem libra_c6_reply_uses_upstream_remote_addr (ro : List Nat) (rp : Nat) :
    handshake none (.ok (.v4 ro rp)) [5, 1, 0, 5, 1, 0, 1, 10, 0, 0, 1, 0, 80]
      = ⟨[5, 0, 5, 0, 0, 1] ++ ro ++ putU16 rp, .ok ()⟩ ∧
    handshake none (.ok (.v6 ro rp)) [5, 1, 0, 5, 1, 0, 1, 10, 0, 0, 1, 0, 80]
      = ⟨[5, 0, 5, 0, 0, 4] ++ ro ++ putU16 rp, .ok ()⟩ :=
  ⟨rfl, rfl⟩

/-- Claim C10.  The encoder writes one-octet length prefixes with `as u8`,
i.e. the true length reduced modulo 256, while still writing every payload
byte; for a Methods list longer than 255 or a username/password longer
than 255 bytes the written prefix therefore disagrees with the payload
length. -/
theorem libra_c10_length_prefix_truncated (ms u p : List Nat)
    (hm : 255 < ms.length) (hu : 255 < u.length) (hp : 255 < p.length) :
    encode (.methods ms) = (5 :: ms.length % 256 :: ms, true) ∧
    ms.length % 256 ≠ ms.length ∧
    encode (.usernamePassword u p)
      = (1 :: u.length % 256 :: (u ++ p.length % 256 :: p), true) ∧
    u.length % 256 ≠ u.length ∧ p.length % 256 ≠ p.length := by
  refine ⟨rfl, ?_, rfl, ?_, ?_⟩
  · have := Nat.mod_lt ms.length (show 0 < 256 by omega)
    omega
  · have := Nat.mod_lt u.length (show 0 < 256 by omega)
    omega
  · have := Nat.mod_lt p.length (show 0 < 256 by omega)
    omega

/-- Witness for claim C10 at lists of length 256, 300 and 256. -/
theorem libra_c10_witness :
    encode (.methods (List.replicate 256 0))
      = (5 :: (List.replicate 256 0).length % 256 :: List.replicate 256 0, true) ∧
    (List.replicate 256 0).length % 256 ≠ (List.replicate 256 0).length ∧
    encode (.usernamePassword (List.replicate 300 1) (List.replicate 256 2))
      = (1 :: (List.replicate 300 1).length % 256 ::
          (List.replicate 300 1 ++ (List.replicate 256 2).length % 256 ::
            List.replicate 256 2), true) ∧
    (List.replicate 300 1).length % 256 ≠ (List.replicate 300 1).length ∧
    (List.replicate 256 2).length % 256 ≠ (List.replicate 256 2).length :=
  libra_c10_length_prefix_truncated (List.replicate 256 0) (List.replicate 300 1)
    (List.replicate 256 2) (by simp only [List.length_replicate]; omega)
    (by simp only [List.length_replicate]; omega)
    (by simp only [List.length_replicate]; omega)

end Libra

namespace Leo

/-- The maximum length of the head section (`MAX_HEAD_LENGTH` in
`src/leo/src/codec.rs`). -/
def MAX_HEAD_LENGTH : Nat := 8 * 1024

/-- The HTTP status codes this crate constructs (`http::StatusCode`
values appearing in `codec.rs`). -/
inductive Status where
  | ok
  | methodNotAllowed
  | httpVersionNotSupported
  | unauthorized
  | proxyAuthenticationRequired
deriving DecidableEq, Repr

/-- `StatusCode::as_str`. -/
def Status.asStr : Status → String
  | .ok => "200"
  | .methodNotAllowed => "405"
  | .httpVersionNotSupported => "505"
  | .unauthorized => "401"
  | .proxyAuthenticationRequired => "407"

/-- `StatusCode::canonical_reason` (always defined for these codes). -/
def Status.canonicalReason : Status → String
  | .ok => "OK"
  | .methodNotAllowed => "Method Not Allowed"
  | .httpVersionNotSupported => "HTTP Version Not Supported"
  | .unauthorized => "Unauthorized"
  | .proxyAuthenticationRequired => "Proxy Authentication Required"

/-- `StatusCode::is_success` (2xx); of the codes above only 200. -/
def Status.isSuccess : Status → Bool
  | .ok => true
  | _ => false

/-- A parsed HTTP head as produced by httparse: method, version (1 for
HTTP/1.1) and the header list in order. -/
structure HttpRequest where
  method : Option String
  version : Option Nat
  headers : List (String × String)

/-- ASCII lower-casing of one character (A-Z to a-z, all else kept). -/
def lowerAscii (c : Char) : Char :=
  if 65 ≤ c.toNat ∧ c.toNat ≤ 90 then Char.ofNat (c.toNat + 32) else c

/-- Rust `str::eq_ignore_ascii_case`: equality after ASCII lower-casing. -/
def eqIgnoreAsciiCase (a b : String) : Bool :=
  a.data.map lowerAscii == b.data.map lowerAscii

/-- First header whose name matches case-insensitively
(`headers.iter().find(...)` in `parse_request`), yielding its value. -/
def findHeaderCI (name : String) (headers : List (String × String)) : Option String :=
  (headers.find? fun h => eqIgnoreAsciiCase h.1 name).map fun h => h.2

/-- The `match (proxy_auth, auth)` block of `parse_request`
(`codec.rs` lines 69-82): `some s` means an early return with status `s`. -/
def authReject : Option String → Option String → Option Status
  | some a, some b => if a ≠ b then some .unauthorized else none
  | none, some _ => some .proxyAuthenticationRequired
  | _, none => none

/-- The decision part of `parse_request` (`codec.rs` lines 53-93), applied
to an already-read-and-parsed head: validate method and version, apply the
authorization policy, extract the `Host` header. -/
def parseRequestDecision (req : HttpRequest) (auth : Option String) :
    Status × Option String :=
  if req.method ≠ some "CONNECT" then (.methodNotAllowed, none)
  else if req.version ≠ some 1 then (.httpVersionNotSupported, none)
  else
    match authReject (findHeaderCI "proxy-authorization" req.headers) auth with
    | some s => (s, none)
    | none => (.ok, findHeaderCI "host" req.headers)

/-- `encode_response` (`codec.rs` lines 163-179): status line, the
`Proxy-Authenticate` header exactly when the status is 407, then the
terminating empty line. -/
def encode_response (status : Status) : String :=
  let statusLine := "HTTP/1.1 " ++ status.asStr ++ " " ++ status.canonicalReason ++ "\r\n"
  let withAuth :=
    if status = .proxyAuthenticationRequired then
      statusLine ++ "Proxy-Authenticate: Basic realm=Proxy Server\r\n"
    else statusLine
  withAuth ++ "\r\n"

/-- Errors of the leo handshake (`errors::Error`). -/
inductive LeoErr where
  | httpStatus (reason : String)
  | http (msg : String)
deriving DecidableEq, Repr

/-- `Builder::handshake` from `src/leo/src/server.rs` lines 17-43, applied
to the outcome of reading and parsing the request head (`none` models
`parse_request` returning `Ok(None)` at end of stream).  The first
component is everything written (and flushed) to the client before the
function returns. -/
def serverHandshake (auth : Option String) (parsed : Option HttpRequest) :
    String × Except LeoErr String :=
  match parsed with
  | some req =>
    let sh := parseRequestDecision req auth
    let out := encode_response sh.1
    if sh.1.isSuccess = false then (out, .error (.httpStatus sh.1.canonicalReason))
    else
      match sh.2 with
      | some host => (out, .ok host)
      | none => (out, .error (.http "non host"))
  | none => ("", .error (.http "non http request"))

/-- `AsyncBufReadExt::read_until(LF, buf)` on a fully available stream:
the bytes up to and including the first line feed (all remaining bytes
when none occurs), and the rest of the stream. -/
def readUntilLF : List Nat → List Nat × List Nat
  | [] => ([], [])
  | b :: rest =>
    if b = 10 then ([b], rest)
    else
      let cr := readUntilLF rest
      (b :: cr.1, cr.2)

/-- The two pieces returned by `readUntilLF` reassemble the input. -/
theorem readUntilLF_append (l : List Nat) :
    (readUntilLF l).1 ++ (readUntilLF l).2 = l := by
  induction l with
  | nil => rfl
  | cons b rest ih =>
    by_cases hb : b = 10 <;> simp [readUntilLF, hb, ih]

/-- `readUntilLF` never grows the remainder. -/
theorem readUntilLF_snd_le (l : List Nat) :
    ((readUntilLF l).2).length ≤ l.length := by
  induction l with
  | nil => simp [readUntilLF]
  | cons b rest ih =>
    by_cases hb : b = 10
    · simp [readUntilLF, hb]
    · simp [readUntilLF, hb]
      omega

/-- On a nonempty input `readUntilLF` consumes at least one byte. -/
theorem readUntilLF_snd_lt (b : Nat) (rest : List Nat) :
    ((readUntilLF (b :: rest)).2).length < (b :: rest).length := by
  have h := readUntilLF_snd_le rest
  by_cases hb : b = 10
  · simp [readUntilLF, hb]
  · simp [readUntilLF, hb]
    omega

/-- The Rust slice test `idx >= s.len()-1 && buf[idx-(s.len()-1)..] == s`,
i.e. does the buffer end with `s`?  Written with `drop` exactly as the
source compares the tail slice. -/
def endsWith (l s : List Nat) : Bool :=
  decide (s.length ≤ l.length) && (l.drop (l.length - s.length) == s)

/-- Every byte of a verified terminator occurs in the buffer. -/
theorem endsWith_subset (l s : List Nat) (h : endsWith l s = true) :
    ∀ a ∈ s, a ∈ l := by
  intro a ha
  have h2 : l.drop (l.length - s.length) == s := by
    simp only [endsWith, Bool.and_eq_true] at h
    exact h.2
  have h3 : l.drop (l.length - s.length) = s := by
    exact eq_of_beq h2
  exact List.drop_subset _ l (h3 ▸ ha)

/-- Outcome of the head-reading loop of `parse_request` / `parse_response`
(`codec.rs` lines 31-47 and 104-124): `eofNone` is `return Ok(None)` on a
zero-byte read, `assertFail` the panic of the 8 KiB cap assert, `head` a
completed head (the loop `break`).  Each carries the buffer contents at
that point. -/
inductive HeadOutcome where
  | eofNone (buf : List Nat)
  | assertFail (buf : List Nat)
  | head (buf : List Nat)
deriving DecidableEq, Repr

/-- The buffer carried by a loop outcome. -/
def HeadOutcome.buf : HeadOutcome → List Nat
  | .eofNone b => b
  | .assertFail b => b
  | .head b => b

/-- The head-reading loop shared by `parse_request` (with
`tolerateLFLF = false`) and `parse_response` (`tolerateLFLF = true`,
codec.rs lines 121-123 also break on a bare `LF LF`): read one
LF-terminated chunk, panic unless the buffer stays under
`MAX_HEAD_LENGTH`, break when the buffer ends with CRLFCRLF (or LFLF when
tolerated), else keep reading. -/
def headLoop (tolerateLFLF : Bool) (buf input : List Nat) : HeadOutcome :=
  match input with
  | [] => .eofNone buf
  | b :: input' =>
    let cr := readUntilLF (b :: input')
    let buf' := buf ++ cr.1
    if MAX_HEAD_LENGTH ≤ buf'.length then .assertFail buf'
    else if endsWith buf' [13, 10, 13, 10] then .head buf'
    else if tolerateLFLF && endsWith buf' [10, 10] then .head buf'
    else headLoop tolerateLFLF buf' cr.2
termination_by input.length
decreasing_by exact readUntilLF_snd_lt _ _

/-- The LF-delimited chunks of the input, as `read_until` would deliver
them. -/
def lfChunks (input : List Nat) : List (List Nat) :=
  match input with
  | [] => []
  | b :: input' =>
    let cr := readUntilLF (b :: input')
    cr.1 :: lfChunks cr.2
termination_by input.length
decreasing_by exact readUntilLF_snd_lt _ _

/-- Length of the longest LF-delimited chunk, i.e. the most a single
`read_until` call appends. -/
def maxChunkLen (input : List Nat) : Nat :=
  ((lfChunks input).map List.length).foldr max 0

/-- Unfolding of `maxChunkLen` by one chunk. -/
theorem maxChunkLen_cons (b : Nat) (input' : List Nat) :
    maxChunkLen (b :: input')
      = max ((readUntilLF (b :: input')).1).length
          (maxChunkLen ((readUntilLF (b :: input')).2)) := by
  simp only [maxChunkLen]
  rw [lfChunks]
  simp

/-- Any completed head produced by the loop fits under the cap, extends
the starting buffer by a prefix of the input, and ends with the
terminator that stopped the loop. -/
theorem headLoop_head : ∀ (n : Nat) (input : List Nat), input.length ≤ n →
    ∀ (t : Bool) (buf b : List Nat), headLoop t buf input = .head b →
      b.length < MAX_HEAD_LENGTH ∧
      (∃ c, b = buf ++ c ∧ c <+: input) ∧
      (endsWith b [13, 10, 13, 10] = true ∨
        (t = true ∧ endsWith b [10, 10] = true)) := by
  intro n
  induction n with
  | zero =>
    intro input hlen t buf b h
    have hnil : input = [] := List.eq_nil_of_length_eq_zero (Nat.le_zero.mp hlen)
    subst hnil
    simp [headLoop] at h
  | succ n ih =>
    intro input hlen t buf b h
    cases input with
    | nil => simp [headLoop] at h
    | cons bb input' =>
      rw [headLoop] at h
      split at h
      · simp at h
      · next h1 =>
        split at h
        · next h2 =>
          have hb : b = buf ++ (readUntilLF (bb :: input')).1 := by
            cases h
            rfl
          subst hb
          refine ⟨by omega, ⟨(readUntilLF (bb :: input')).1, rfl,
            ⟨(readUntilLF (bb :: input')).2, readUntilLF_append _⟩⟩, .inl h2⟩
        · next h2 =>
          split at h
          · next h3 =>
            have hb : b = buf ++ (readUntilLF (bb :: input')).1 := by
              cases h
              rfl
            subst hb
            rw [Bool.and_eq_true] at h3
            obtain ⟨ht, he⟩ := h3
            refine ⟨by omega, ⟨(readUntilLF (bb :: input')).1, rfl,
              ⟨(readUntilLF (bb :: input')).2, readUntilLF_append _⟩⟩, .inr ⟨ht, he⟩⟩
          · next h3 =>
            have hlen2 : ((readUntilLF (bb :: input')).2).length ≤ n := by
              have hlt := readUntilLF_snd_lt bb input'
              simp only [List.length_cons] at hlt hlen
              omega
            obtain ⟨hl, ⟨c, hbc, hc⟩, hend⟩ :=
              ih ((readUntilLF (bb :: input')).2) hlen2 t
                (buf ++ (readUntilLF (bb :: input')).1) b h
            refine ⟨hl, ⟨(readUntilLF (bb :: input')).1 ++ c,
              by rw [hbc, List.append_assoc], ?_⟩, hend⟩
            obtain ⟨s, hs⟩ := hc
            exact ⟨s, by rw [List.append_assoc, hs, readUntilLF_append]⟩

/-- The loop never buffers more than the cap plus a single chunk: a run
started with a buffer under the cap ends (in every outcome) with a buffer
shorter than `MAX_HEAD_LENGTH` plus the longest LF-delimited chunk of the
input. -/
theorem headLoop_buf_le : ∀ (n : Nat) (input : List Nat), input.length ≤ n →
    ∀ (t : Bool) (buf : List Nat), buf.length < MAX_HEAD_LENGTH →
      ((headLoop t buf input).buf).length < MAX_HEAD_LENGTH + maxChunkLen input := by
  intro n
  induction n with
  | zero =>
    intro input hlen t buf hbuf
    have hnil : input = [] := List.eq_nil_of_length_eq_zero (Nat.le_zero.mp hlen)
    subst hnil
    simp only [headLoop, HeadOutcome.buf]
    omega
  | succ n ih =>
    intro input hlen t buf hbuf
    cases input with
    | nil =>
      simp only [headLoop, HeadOutcome.buf]
      omega
    | cons bb input' =>
      rw [headLoop, maxChunkLen_cons]
      have hmaxl : ((readUntilLF (bb :: input')).1).length ≤
          max ((readUntilLF (bb :: input')).1).length
            (maxChunkLen ((readUntilLF (bb :: input')).2)) := Nat.le_max_left _ _
      have hmaxr : maxChunkLen ((readUntilLF (bb :: input')).2) ≤
          max ((readUntilLF (bb :: input')).1).length
            (maxChunkLen ((readUntilLF (bb :: input')).2)) := Nat.le_max_right _ _
      split
      · next h1 =>
        simp only [HeadOutcome.buf, List.length_append]
        omega
      · next h1 =>
        split
        · simp only [HeadOutcome.buf]
          omega
        · split
          · simp only [HeadOutcome.buf]
            omega
          · have hlen2 : ((readUntilLF (bb :: input')).2).length ≤ n := by
              have hlt := readUntilLF_snd_lt bb input'
              simp only [List.length_cons] at hlt hlen
              omega
            have hbuf2 : (buf ++ (readUntilLF (bb :: input')).1).length
                < MAX_HEAD_LENGTH := by omega
            have := ih ((readUntilLF (bb :: input')).2) hlen2 t
              (buf ++ (readUntilLF (bb :: input')).1) hbuf2
            omega

/-- On an LF-free stream `readUntilLF` buffers the whole stream as a
single chunk. -/
theorem readUntilLF_no_lf (l : List Nat) (h : 10 ∉ l) :
    readUntilLF l = (l, []) := by
  induction l with
  | nil => rfl
  | cons b rest ih =>
    have hb : b ≠ 10 := fun hb => h (hb ▸ List.mem_cons_self b rest)
    have hr : 10 ∉ rest := fun hr => h (List.mem_cons_of_mem b hr)
    simp [readUntilLF, hb, ih hr]

/-- On an LF-free stream at least as long as the cap, the very first
`read_until` call buffers the entire stream and only then does the cap
assert fire: the loop ends holding every input byte. -/
theorem headLoop_lf_free (t : Bool) (n : Nat) (h : MAX_HEAD_LENGTH ≤ n) :
    headLoop t [] (List.replicate n 97) = .assertFail (List.replicate n 97) := by
  obtain ⟨m, rfl⟩ : ∃ m, n = m + 1 :=
    ⟨n - 1, by rw [MAX_HEAD_LENGTH] at h; omega⟩
  have hr : readUntilLF (97 :: List.replicate m 97) = (97 :: List.replicate m 97, []) :=
    readUntilLF_no_lf _ (by simp [List.mem_replicate])
  rw [List.replicate_succ, headLoop]
  simp only [hr, List.nil_append]
  rw [if_pos (by simpa using h)]

/-- Claim C8, counterexample to the bounded-buffering conjunct.  A stream
of 65537 bytes containing no CR and no LF lies in the claim's premise:
its head — everything before a (never arriving) terminator — exceeds 8192
bytes.  Yet both the request-side and the response-side loop end with the
entire 65537-byte input in the buffer, eight times the 8 KiB cap:
`read_until` appends everything up to the next line feed before the cap
assert runs.  By `headLoop_lf_free` the same holds for an LF-free stream
of any length, so no bound on the buffered data exists. -/
theorem leo_c8_counterexample :
    (13 : Nat) ∉ List.replicate 65537 (97 : Nat) ∧
    (10 : Nat) ∉ List.replicate 65537 (97 : Nat) ∧
    MAX_HEAD_LENGTH < (List.replicate 65537 (97 : Nat)).length ∧
    headLoop false [] (List.replicate 65537 97)
      = .assertFail (List.replicate 65537 97) ∧
    headLoop true [] (List.replicate 65537 97)
      = .assertFail (List.replicate 65537 97) ∧
    8 * MAX_HEAD_LENGTH < ((headLoop false [] (List.replicate 65537 97)).buf).length ∧
    8 * MAX_HEAD_LENGTH < ((headLoop true [] (List.replicate 65537 97)).buf).length := by
  have hcap : MAX_HEAD_LENGTH ≤ 65537 := by rw [MAX_HEAD_LENGTH]; omega
  refine ⟨by simp only [List.mem_replicate]; omega,
    by simp only [List.mem_replicate]; omega,
    by simp only [List.length_replicate, MAX_HEAD_LENGTH]; omega,
    headLoop_lf_free false 65537 hcap,
    headLoop_lf_free true 65537 hcap, ?_, ?_⟩
  · rw [headLoop_lf_free false 65537 hcap]
    simp only [HeadOutcome.buf, List.length_replicate, MAX_HEAD_LENGTH]
    omega
  · rw [headLoop_lf_free true 65537 hcap]
    simp only [HeadOutcome.buf, List.length_replicate, MAX_HEAD_LENGTH]
    omega

/-- Claim C8, amended.  If every terminated prefix of the stream is longer
than the 8 KiB cap (i.e. the head would exceed 8192 bytes before its
terminator — the hypotheses are vacuous when no terminator occurs at all),
then neither the request-side loop nor the response-side loop ever
completes a head, so `parse_request` and `parse_response` cannot succeed
(they hit the cap assert or end of stream instead).  The buffered data,
however, is bounded only relative to the input: it stays below the cap
plus a single `read_until` chunk, and a chunk — everything up to the next
line feed — can be arbitrarily long (see the counterexample above). -/
theorem leo_c8_head_cap (input : List Nat)
    (hcr : ∀ p, p <+: input → endsWith p [13, 10, 13, 10] = true → 8196 < p.length)
    (hlf : ∀ p, p <+: input → endsWith p [10, 10] = true → 8194 < p.length) :
    (∀ b, headLoop false [] input ≠ .head b) ∧
    (∀ b, headLoop true [] input ≠ .head b) ∧
    ∀ t, ((headLoop t [] input).buf).length < MAX_HEAD_LENGTH + maxChunkLen input := by
  have key : ∀ (t : Bool) (b : List Nat), headLoop t [] input = .head b →
      t = true ∧ endsWith b [10, 10] = true ∧ b <+: input := by
    intro t b h
    obtain ⟨hl, ⟨c, hbc, hc⟩, hend⟩ := headLoop_head input.length input le_rfl t [] b h
    have hb : b = c := by simpa using hbc
    subst hb
    rw [MAX_HEAD_LENGTH] at hl
    rcases hend with he | ⟨ht, he⟩
    · have := hcr b hc he
      omega
    · exact ⟨ht, he, hc⟩
  refine ⟨?_, ?_, ?_⟩
  · intro b h
    obtain ⟨ht, _, _⟩ := key false b h
    exact absurd ht (by simp)
  · intro b h
    obtain ⟨_, he, hc⟩ := key true b h
    obtain ⟨hl, _, _⟩ := headLoop_head input.length input le_rfl true [] b h
    rw [MAX_HEAD_LENGTH] at hl
    have := hlf b hc he
    omega
  · intro t
    exact headLoop_buf_le input.length input le_rfl t []
      (by simp [MAX_HEAD_LENGTH])

/-- Witness for the amended claim C8: a stream of 8200 bytes none of
which is CR or LF, so no terminated prefix exists at all and both
hypotheses hold vacuously (its head exceeds the cap unterminated). -/
theorem leo_c8_witness :
    (∀ b, headLoop false [] (List.replicate 8200 97) ≠ .head b) ∧
    (∀ b, headLoop true [] (List.replicate 8200 97) ≠ .head b) ∧
    ∀ t, ((headLoop t [] (List.replicate 8200 97)).buf).length
        < MAX_HEAD_LENGTH + maxChunkLen (List.replicate 8200 97) :=
  leo_c8_head_cap (List.replicate 8200 97)
    (fun p hp hs =>
      absurd (List.eq_of_mem_replicate
          (hp.subset (endsWith_subset p _ hs 10 (by decide)))) (by decide))
    (fun p hp hs =>
      absurd (List.eq_of_mem_replicate
          (hp.subset (endsWith_subset p _ hs 10 (by decide)))) (by decide))

/-- Claim C7.  With credentials configured and no `Proxy-Authorization`
header on a parsed CONNECT/1.1 request, the bytes written to the client
are the 407 status line, then the CRLF-terminated line
`Proxy-Authenticate: Basic realm=Proxy Server`, then the terminating
empty line; the handshake then fails. -/
theorem leo_c7_407_includes_proxy_authenticate (req : HttpRequest) (a : String)
    (hm : req.method = some "CONNECT") (hv : req.version = some 1)
    (hh : findHeaderCI "proxy-authorization" req.headers = none) :
    serverHandshake (some a) (some req)
      = ("HTTP/1.1 407 Proxy Authentication Required\r\n" ++
          "Proxy-Authenticate: Basic realm=Proxy Server\r\n" ++ "\r\n",
        .error (.httpStatus "Proxy Authentication Required")) := by
  have hd : parseRequestDecision req (some a) = (.proxyAuthenticationRequired, none) := by
    simp [parseRequestDecision, hm, hv, hh, authReject]
  simp [serverHandshake, hd, encode_response, Status.isSuccess,
    Status.canonicalReason, Status.asStr]

/-- Witness for claim C7 at a concrete request. -/
theorem leo_c7_witness :
    serverHandshake (some "Basic QWxhZGRpbg")
        (some ⟨some "CONNECT", some 1, [("Host", "example.com:443")]⟩)
      = ("HTTP/1.1 407 Proxy Authentication Required\r\n" ++
          "Proxy-Authenticate: Basic realm=Proxy Server\r\n" ++ "\r\n",
        .error (.httpStatus "Proxy Authentication Required")) :=
  leo_c7_407_includes_proxy_authenticate
    ⟨some "CONNECT", some 1, [("Host", "example.com:443")]⟩ "Basic QWxhZGRpbg"
    rfl rfl (by decide)

/-- Claim C9.  A parsed CONNECT/1.1 request that passes the authorization
check but has no `Host` header makes the server write the full
`HTTP/1.1 200 OK` response to the client first, and only afterwards fail
the handshake with the "non host" error: the peer observes a success
response although no tunnel target exists. -/
theorem leo_c9_success_response_before_missing_host_failure
    (req : HttpRequest) (auth : Option String)
    (hm : req.method = some "CONNECT") (hv : req.version = some 1)
    (ha : authReject (findHeaderCI "proxy-authorization" req.headers) auth = none)
    (hh : findHeaderCI "host" req.headers = none) :
    serverHandshake auth (some req)
      = ("HTTP/1.1 200 OK\r\n" ++ "\r\n", .error (.http "non host")) := by
  have hd : parseRequestDecision req auth = (.ok, none) := by
    simp [parseRequestDecision, hm, hv, ha, hh]
  simp [serverHandshake, hd, encode_response, Status.isSuccess,
    Status.canonicalReason, Status.asStr]

/-- Witness for claim C9 at a concrete request with no auth configured. -/
theorem leo_c9_witness :
    serverHandshake none (some ⟨some "CONNECT", some 1, []⟩)
      = ("HTTP/1.1 200 OK\r\n" ++ "\r\n", .error (.http "non host")) :=
  leo_c9_success_response_before_missing_host_failure
    ⟨some "CONNECT", some 1, []⟩ none rfl rfl rfl rfl

end Leo

